import Mathlib

/-!
Verification of the arctic-spa-dc client library against its specification.

The development shallowly embeds the Python sources:
* `bytebuffer.py` : big-endian byte buffer with in-place patching (`ByteBuffer`),
* `packet.py`     : outbound frame encoder `Packet.serialize` and the
                    checksum acceptance test `Packet.checksum_valid`,
* `client.py`     : the wire-frame decoder (`decode_one`, `decode`), the
                    connect retry loop, the poll loop, and command validation,
* `arctic_spa_client.py` : the async variant of the connect retry loop.

Bytes are modelled as `Nat` values (< 256 for real byte strings); machine
integers are `Nat`/`Int` with explicit reduction modulo `2 ^ w`.
-/

namespace ArcticSpaDC

/-- Big-endian byte decomposition of a natural number into `n` bytes,
modelling `struct.pack` of an unsigned value (most significant byte first). -/
def natBytesBE : Nat → Nat → List Nat
  | 0, _ => []
  | n + 1, v => natBytesBE n (v / 256) ++ [v % 256]

/-- The `struct.error` exception CPython raises when `struct.pack` is given
a value outside the range of its format. -/
inductive StructError where
  | packOutOfRange
deriving DecidableEq, Repr

/-- Whether a value fits the signed 32-bit range `[-2^31, 2^31)` of
`struct.pack` format `>i` (see `int32Fits_iff`). -/
def int32Fits : Int → Bool
  | .ofNat n => decide (n < 2 ^ 31)
  | .negSucc m => decide (m < 2 ^ 31)

/-- Whether a value fits the signed 16-bit range `[-2^15, 2^15)` of
`struct.pack` format `>h` (see `int16Fits_iff`). -/
def int16Fits : Int → Bool
  | .ofNat n => decide (n < 2 ^ 15)
  | .negSucc m => decide (m < 2 ^ 15)

/-- Whether a value fits the unsigned 32-bit range `[0, 2^32)` of
`struct.pack` format `>I` (see `uint32Fits_iff`). -/
def uint32Fits : Int → Bool
  | .ofNat n => decide (n < 2 ^ 32)
  | .negSucc _ => false

theorem int32Fits_iff (v : Int) : int32Fits v = true ↔ -2 ^ 31 ≤ v ∧ v < 2 ^ 31 := by
  cases v <;> simp [int32Fits, Int.negSucc_eq] <;> omega

theorem int16Fits_iff (v : Int) : int16Fits v = true ↔ -2 ^ 15 ≤ v ∧ v < 2 ^ 15 := by
  cases v <;> simp [int16Fits, Int.negSucc_eq] <;> omega

theorem uint32Fits_iff (v : Int) : uint32Fits v = true ↔ 0 ≤ v ∧ v < 2 ^ 32 := by
  cases v <;> simp [uint32Fits, Int.negSucc_eq] <;> try omega

/-- `struct.pack('>i', v)`: four big-endian two's-complement bytes for
`-2^31 <= v < 2^31`, `struct.error` outside that range. -/
def packInt32BE (v : Int) : Except StructError (List Nat) :=
  if int32Fits v then .ok (natBytesBE 4 (v % 2 ^ 32).toNat)
  else .error .packOutOfRange

/-- `struct.pack('>h', v)`: two big-endian two's-complement bytes for
`-2^15 <= v < 2^15`, `struct.error` outside that range. -/
def packInt16BE (v : Int) : Except StructError (List Nat) :=
  if int16Fits v then .ok (natBytesBE 2 (v % 2 ^ 16).toNat)
  else .error .packOutOfRange

/-- `struct.pack('>I', v)`: four big-endian bytes of an unsigned value for
`0 <= v < 2^32`, `struct.error` outside that range. -/
def packUInt32BE (v : Int) : Except StructError (List Nat) :=
  if uint32Fits v then .ok (natBytesBE 4 v.toNat)
  else .error .packOutOfRange

/-- Read a big-endian 16-bit unsigned integer at offset `i`,
modelling the `H` fields of `struct.unpack`. -/
def read16 (data : List Nat) (i : Nat) : Nat :=
  data.getD i 0 * 256 + data.getD (i + 1) 0

/-- Read a big-endian 32-bit unsigned integer at offset `i`,
modelling the `I` fields of `struct.unpack`. -/
def read32 (data : List Nat) (i : Nat) : Nat :=
  data.getD i 0 * 2 ^ 24 + data.getD (i + 1) 0 * 2 ^ 16 +
    data.getD (i + 2) 0 * 2 ^ 8 + data.getD (i + 3) 0

theorem natBytesBE_length (n v : Nat) : (natBytesBE n v).length = n := by
  induction n generalizing v with
  | zero => rfl
  | succ n ih => simp [natBytesBE, ih]

theorem natBytesBE_two (v : Nat) :
    natBytesBE 2 v = [v / 2 ^ 8 % 256, v % 256] := by
  simp [natBytesBE, Nat.div_div_eq_div_mul]

theorem natBytesBE_four (v : Nat) :
    natBytesBE 4 v = [v / 2 ^ 24 % 256, v / 2 ^ 16 % 256, v / 2 ^ 8 % 256, v % 256] := by
  simp [natBytesBE, Nat.div_div_eq_div_mul]

theorem natBytesBE_two_mod (v : Nat) :
    natBytesBE 2 (v % 2 ^ 16) = natBytesBE 2 v := by
  rw [natBytesBE_two, natBytesBE_two]
  simp only [List.cons.injEq, and_true]
  omega

theorem natBytesBE_four_mod (v : Nat) :
    natBytesBE 4 (v % 2 ^ 32) = natBytesBE 4 v := by
  rw [natBytesBE_four, natBytesBE_four]
  simp only [List.cons.injEq, and_true]
  omega

theorem packInt32BE_ofNat (v : Nat) (h : v < 2 ^ 31) :
    packInt32BE (v : Int) = .ok (natBytesBE 4 v) := by
  unfold packInt32BE
  rw [show int32Fits (v : Int) = true from decide_eq_true h, if_pos rfl]
  have heq : (((v : Nat) : Int) % 2 ^ 32).toNat = v % 2 ^ 32 := by omega
  rw [heq, natBytesBE_four_mod]

theorem packInt16BE_ofNat (v : Nat) (h : v < 2 ^ 15) :
    packInt16BE (v : Int) = .ok (natBytesBE 2 v) := by
  unfold packInt16BE
  rw [show int16Fits (v : Int) = true from decide_eq_true h, if_pos rfl]
  have heq : (((v : Nat) : Int) % 2 ^ 16).toNat = v % 2 ^ 16 := by omega
  rw [heq, natBytesBE_two_mod]

theorem packUInt32BE_ofNat (v : Nat) (h : v < 2 ^ 32) :
    packUInt32BE (v : Int) = .ok (natBytesBE 4 v) := by
  unfold packUInt32BE
  rw [show uint32Fits (v : Int) = true from decide_eq_true h, if_pos rfl]
  have heq : ((v : Nat) : Int).toNat = v := by omega
  rw [heq]

/-- One shift-and-conditionally-xor round of the reflected CRC-32 computation
(polynomial `0xEDB88320`), as performed by zlib. -/
def crcRound (c : Nat) : Nat :=
  if c % 2 = 1 then Nat.xor (c / 2) 0xEDB88320 else c / 2

/-- `n` iterated CRC rounds. -/
def crcRounds : Nat → Nat → Nat
  | 0, c => c
  | n + 1, c => crcRounds n (crcRound c)

/-- CRC-32 of a byte string exactly as computed by `zlib.crc32`:
initial value `0xFFFFFFFF`, per byte xor-in followed by eight reflected
polynomial rounds, final complement. -/
def crc32 (data : List Nat) : Nat :=
  Nat.xor (data.foldl (fun c b => crcRounds 8 (Nat.xor c b)) 0xFFFFFFFF) 0xFFFFFFFF

/-- Embedding of `bytebuffer.py`: a `BytesIO`-backed buffer.  During the
write phase of `Packet.serialize` the stream position always sits at the end
of the written data, so the buffer content is the list of written bytes; the
(unused) `capacity` argument of `allocate` is kept as a field. -/
structure ByteBuffer where
  data : List Nat
  capacity : Nat

/-- `ByteBuffer.allocate(capacity)`: a fresh empty buffer. -/
def ByteBuffer.allocate (capacity : Nat) : ByteBuffer :=
  ⟨[], capacity⟩

/-- `put_bytes`: append raw bytes at the current (end) position. -/
def ByteBuffer.put_bytes (b : ByteBuffer) (v : List Nat) : ByteBuffer :=
  ⟨b.data ++ v, b.capacity⟩

/-- `put_int`: append a 32-bit big-endian integer (`struct.pack` format `>i`);
`struct.error` propagates for a value outside the signed 32-bit range. -/
def ByteBuffer.put_int (b : ByteBuffer) (v : Int) : Except StructError ByteBuffer :=
  match packInt32BE v with
  | .ok bytes => .ok (b.put_bytes bytes)
  | .error e => .error e

/-- `put_short`: append a 16-bit big-endian integer (`struct.pack` format
`>h`); `struct.error` propagates for a value outside the signed 16-bit
range. -/
def ByteBuffer.put_short (b : ByteBuffer) (v : Int) : Except StructError ByteBuffer :=
  match packInt16BE v with
  | .ok bytes => .ok (b.put_bytes bytes)
  | .error e => .error e

/-- Overwrite the bytes of `l` starting at offset `i` with `v`
(`BytesIO.seek(i)` followed by a write), restoring the previous position. -/
def writeAt (l : List Nat) (i : Nat) (v : List Nat) : List Nat :=
  l.take i ++ v ++ l.drop (i + v.length)

/-- `put_int_at(index, value)`: patch a 32-bit big-endian integer in place
(`struct.pack` format `>I`) without disturbing the write position;
`struct.error` propagates for a value outside the unsigned 32-bit range. -/
def ByteBuffer.put_int_at (b : ByteBuffer) (i : Nat) (v : Int) :
    Except StructError ByteBuffer :=
  match packUInt32BE v with
  | .ok bytes => .ok ⟨writeAt b.data i bytes, b.capacity⟩
  | .error e => .error e

/-- Embedding of the `Packet` class of `packet.py`.  `__init__` sets
`sequence_number = 0` and `optional = 0`; `self.size` always equals
`len(self.payload)` (set in `__init__`, never reassigned), so it is kept
derived rather than stored. -/
structure Packet where
  sequence_number : Nat
  optional : Nat
  type : Nat
  payload : List Nat

/-- `self.size`: the payload length recorded at construction. -/
def Packet.size (p : Packet) : Nat :=
  p.payload.length

/-- `Packet.__init__(packet_type, payload)`. -/
def Packet.init (packet_type : Nat) (payload : List Nat) : Packet :=
  ⟨0, 0, packet_type, payload⟩

/-- `Packet.serialize`: build the frame (magic `-1414718150`, zeroed checksum
field, sequence number, optional, type, size, payload), compute the CRC-32 of
the whole provisional buffer, then patch the CRC into bytes 4..8 in place.
Each `put` propagates the `struct.error` raised when its value is out of the
range of its pack format. -/
def Packet.serialize (p : Packet) : Except StructError (List Nat) :=
  ((ByteBuffer.allocate (p.size + 20)).put_int (-1414718150)).bind fun buffer =>
    (buffer.put_int 0).bind fun buffer =>
      (buffer.put_int (p.sequence_number : Int)).bind fun buffer =>
        (buffer.put_int (p.optional : Int)).bind fun buffer =>
          (buffer.put_short (p.type : Int)).bind fun buffer =>
            (buffer.put_short (p.size : Int)).bind fun buffer =>
              let buffer := buffer.put_bytes p.payload
              let crc := crc32 buffer.data
              (buffer.put_int_at 4 (crc : Int)).map fun buffer => buffer.data

/-- `Packet.checksum_valid`: rebuild a frame image (with the distinct magic
`-1414717974` and a zeroed second field), compute its CRC-32 and accept iff
`(-1 &&& crc) == crc`, where `-1` is the Python integer minus one.  Each
`put` propagates the `struct.error` raised for an out-of-range value. -/
def Packet.checksum_valid (p : Packet) : Except StructError Bool :=
  ((ByteBuffer.allocate (p.payload.length + 20)).put_int (-1414717974)).bind fun buffer =>
    (buffer.put_int 0).bind fun buffer =>
      (buffer.put_int (p.sequence_number : Int)).bind fun buffer =>
        (buffer.put_int (p.optional : Int)).bind fun buffer =>
          (buffer.put_short (p.type : Int)).bind fun buffer =>
            (buffer.put_short (p.size : Int)).bind fun buffer =>
              let buffer := buffer.put_bytes p.payload
              let crc := crc32 buffer.data
              if Int.land (-1) (crc : Int) = (crc : Int) then .ok true else .ok false

/-- `ArcticSpaProtocol.PREAMBLE = b'\xab\xad\x1d\x3a'`. -/
def PREAMBLE : List Nat := [0xAB, 0xAD, 0x1D, 0x3A]

/-- `ArcticSpaProtocol.HEADER_SIZE`. -/
def HEADER_SIZE : Nat := 20

/-- `MessageType.HEARTBEAT`. -/
def HEARTBEAT : Nat := 10

/-- The numeric values of every member of the `MessageType` enumeration in
`client.py`; `MessageType(n)` succeeds exactly for `n` in this list. -/
def validTypes : List Nat :=
  [0, 1, 2, 3, 4, 5, 6, 7, 8, 9, 10, 13, 16, 48, 49, 50, 80, 81, 82, 83, 84, 85,
   112, 113, 114, 115, 116, 117, 118, 119, 120, 121, 122, 123, 124, 125, 127,
   144, 194, 195, 196]

/-- The keys of `Message.MESSAGE_TYPE_DECODERS` in `client.py`: the message
types that have a registered protobuf payload decoder. -/
def decoderTypes : List Nat :=
  [0, 1, 2, 3, 4, 5, 6, 7, 9, 13, 16, 48, 50, 80, 82, 84, 85,
   112, 113, 114, 115, 116, 117, 118, 119, 120, 121, 122, 123, 124]

/-- Embedding of the `Message` wrapper of `client.py`: the fields stored by
`Message.__init__`.  The decoded protobuf value (`self.data`) is produced by
an externally-supplied payload schema and is out of scope, so it is not
modelled. -/
structure Message where
  message_type : Nat
  counter : Nat
  checksum : List Nat
  payload : List Nat
deriving DecidableEq, Repr

/-- The exceptions `ArcticSpaProtocol.decode_one` can raise: the two
`DecodeError` cases, and the `ValueError` raised by `MessageType(header[6])`
when the type id is not a member of the enumeration. -/
inductive DecodeError where
  | frameTooShort (got : Nat)
  | badPreamble
  | invalidMessageType (t : Nat)
deriving DecidableEq, Repr

/-- `ArcticSpaProtocol.decode_one`: check the minimum header size and the
preamble, unpack the header fields (`!xxxxBBBBIIHH`), slice the declared
payload, and return `(message-or-None, remainder)`; the message is `None`
for heartbeats and for types without a registered decoder. -/
def decode_one (data : List Nat) : Except DecodeError (Option Message × List Nat) :=
  if data.length < HEADER_SIZE then .error (.frameTooShort data.length)
  else if data.take 4 ≠ PREAMBLE then .error .badPreamble
  else
    let message_type := read16 data 16
    if message_type ∈ validTypes then
      let length := read16 data 18
      let payload := (data.drop HEADER_SIZE).take length
      let message : Option Message :=
        if message_type ≠ HEARTBEAT ∧ message_type ∈ decoderTypes then
          some ⟨message_type, read32 data 8, (data.drop 4).take 4, payload⟩
        else none
      .ok (message, data.drop (HEADER_SIZE + length))
    else .error (.invalidMessageType message_type)

theorem decode_one_ok_length {data : List Nat} {m : Option Message} {rest : List Nat}
    (h : decode_one data = .ok (m, rest)) : rest.length < data.length := by
  unfold decode_one HEADER_SIZE at h
  split at h
  · exact absurd h (by simp)
  · split at h
    · exact absurd h (by simp)
    · dsimp only at h
      split at h
      · simp only [Except.ok.injEq, Prod.mk.injEq] at h
        obtain ⟨-, hr⟩ := h
        subst hr
        simp only [List.length_drop]
        omega
      · exact absurd h (by simp)

/-- `ArcticSpaProtocol.decode`: repeatedly decode the first frame of the
remaining bytes until none remain, collecting every produced
message-or-`None` in order; a decode error aborts the whole call. -/
def decode (data : List Nat) : Except DecodeError (List (Option Message)) :=
  if data = [] then .ok []
  else
    match h2 : decode_one data with
    | .error e => .error e
    | .ok (m, remainder) =>
      match decode remainder with
      | .error e => .error e
      | .ok ms => .ok (m :: ms)
termination_by data.length
decreasing_by exact decode_one_ok_length h2

/-- The outcome of one `socket.create_connection` / `asyncio.open_connection`
attempt: success, a timeout exception, or any other `OSError` /
`ConnectionRefusedError`. -/
inductive Outcome where
  | success
  | timedOut
  | refused
deriving DecidableEq, Repr

/-- The retry loop of `ArcticSpaClient.connect` in `client.py` (synchronous
variant).  `outcomes k` is the result of the `k`-th connection attempt
actually performed; `fuel` is `attempts - attempt`; `performed` counts
attempts made so far.  Returns the value of `connect` paired with the total
number of connection attempts performed.  On success the loop `break`s with
the connection set; on timeout the attempt counter advances; on any other
error `connect` returns `False` at once; when the counter reaches `attempts`
the loop ends with no connection, and `is_connected()` is returned. -/
def connectSyncGo (outcomes : Nat → Outcome) : Nat → Nat → Bool × Nat
  | 0, performed => (false, performed)
  | fuel + 1, performed =>
    match outcomes performed with
    | .success => (true, performed + 1)
    | .timedOut => connectSyncGo outcomes fuel (performed + 1)
    | .refused => (false, performed + 1)

/-- `ArcticSpaClient.connect(..., attempts)` of `client.py`, starting from the
freshly disconnected state (`connect` first calls `self.disconnect()`). -/
def connectSync (attempts : Nat) (outcomes : Nat → Outcome) : Bool × Nat :=
  connectSyncGo outcomes attempts 0

/-- The retry loop of the async `ArcticSpaClient.connect` in
`arctic_spa_client.py`.  Unlike the synchronous variant there is no `break`
on success: the attempt counter is advanced only by timeouts, so a successful
attempt leaves the loop condition unchanged and another connection is opened.
`connected` records whether `self._writer` has been set; `fuel` bounds the
number of loop iterations modelled (`none` = the loop is still running after
`fuel` iterations). -/
def connectAsyncGo (outcomes : Nat → Outcome) (attempts : Nat) :
    Nat → Nat → Nat → Bool → Option (Bool × Nat)
  | 0, _, _, _ => none
  | fuel + 1, attempt, performed, connected =>
    if attempt < attempts then
      match outcomes performed with
      | .success => connectAsyncGo outcomes attempts fuel attempt (performed + 1) true
      | .timedOut => connectAsyncGo outcomes attempts fuel (attempt + 1) (performed + 1) connected
      | .refused => some (false, performed + 1)
    else some (connected, performed)

/-- The async `ArcticSpaClient.connect(..., attempts)` of
`arctic_spa_client.py`, starting disconnected. -/
def connectAsync (attempts : Nat) (outcomes : Nat → Outcome) (fuel : Nat) :
    Option (Bool × Nat) :=
  connectAsyncGo outcomes attempts fuel 0 0 false

/-- The Python `dict` held by `_poll_messages`, abstracted to its key set and
valuation: `keys` lists the present keys (message type ids) and `val` gives
each present key its value (`none` models the Python `None` placeholder).
Insertion order is not observed by the poll loop. -/
structure PollDict where
  keys : List Nat
  val : Nat → Option Message

/-- `requested_messages[k] = m`: update the value, adding the key when absent. -/
def dictSet (d : PollDict) (k : Nat) (m : Message) : PollDict :=
  ⟨if k ∈ d.keys then d.keys else d.keys ++ [k],
   fun t => if t = k then some m else d.val t⟩

/-- `None in requested_messages.values()`. -/
def dictHasNone (d : PollDict) : Bool :=
  d.keys.any fun t => (d.val t).isNone

/-- `requested_messages.get(t)` : `some v` when the key is present with value
`v`, `none` when absent. -/
def dictGet (d : PollDict) (t : Nat) : Option (Option Message) :=
  if t ∈ d.keys then some (d.val t) else none

/-- One step of `for message in self.read_messages(): if message: ...` —
a non-`None` message is stored under its own message type, a `None` entry is
skipped. -/
def pollStep (d : PollDict) (m? : Option Message) : PollDict :=
  match m? with
  | some m => dictSet d m.message_type m
  | none => d

/-- The whole `for` body: fold one decoded chunk into the dictionary. -/
def processChunk (d : PollDict) (chunk : List (Option Message)) : PollDict :=
  chunk.foldl pollStep d

/-- `{message_type: None for message_type in message_types}`. -/
def initialPollDict (types : List Nat) : PollDict :=
  ⟨types, fun _ => none⟩

/-- The possible results of the `_poll_messages` loop: the completed
dictionary, the `TimeoutError` raised when the deadline has passed at the top
of an iteration, or the model boundary where the finite oracle of reads has
been exhausted while the loop would keep reading. -/
inductive PollOutcome where
  | ok (d : PollDict)
  | timeoutError
  | needMoreReads

/-- The loop of `ArcticSpaClient._poll_messages` in `client.py`.  Each oracle
entry `(expired, chunk)` supplies, for one iteration, the value of the
deadline test `timeout and (time.time() - start) > timeout` and the decoded
result of `self.read_messages()`.  The loop raises `TimeoutError` when the
deadline test fires, otherwise folds the chunk into the dictionary and stops
as soon as no requested entry is `None`. -/
def pollLoop : List (Bool × List (Option Message)) → PollDict → PollOutcome
  | [], _ => .needMoreReads
  | (expired, chunk) :: rest, d =>
    if expired then .timeoutError
    else
      let d2 := processChunk d chunk
      if dictHasNone d2 then pollLoop rest d2 else .ok d2

/-- The loop of `ArcticSpaClient.write_requested_messages`:
`command_packet_bytes = b''`, then for each requested type append
`Packet(t).serialize()`; a `struct.error` raised by `serialize` propagates
and nothing is sent. -/
def writeRequestedGo : List Nat → List Nat → Except StructError (List Nat)
  | [], acc => .ok acc
  | t :: rest, acc =>
    match Packet.serialize (Packet.init t []) with
    | .ok packet_bytes => writeRequestedGo rest (acc ++ packet_bytes)
    | .error e => .error e

/-- `ArcticSpaClient.write_requested_messages` on an already-deduplicated
list of requested types: the byte string handed to `sendall` in one write. -/
def write_requested_messages (types : List Nat) : Except StructError (List Nat) :=
  writeRequestedGo types []

/-- `ArcticSpaClient.poll_messages` of `client.py` on an already-deduplicated
list of requested types: first `write_requested_messages` sends one request
(the first component: the bytes written, or the `struct.error` that aborted
the call), then `_poll_messages` runs (the second component; it is only
reached when the write succeeded — the loop is independent of the written
bytes). -/
def poll_messages (types : List Nat) (reads : List (Bool × List (Option Message))) :
    Except StructError (List Nat) × PollOutcome :=
  (write_requested_messages types, pollLoop reads (initialPollDict types))

/-- The `CommandType` enumeration of `client.py`. -/
inductive CommandType where
  | TEMPERATURE_SETPOINT_FAHRENHEIT
  | PUMP_1
  | PUMP_2
  | PUMP_3
  | PUMP_4
  | PUMP_5
  | BLOWER_1
  | BLOWER_2
  | LIGHTS
  | STEREO
  | FILTER
  | ONZEN
  | OZONE
  | EXHAUST_FAN
  | SAUNA_STATE
  | SAUNA_TIME_LEFT
  | ALL_ON
  | FOGGER
  | SPABOY_BOOST
  | PACK_RESET
  | LOG_DUMP
  | SDS
  | YESS
deriving DecidableEq, Repr

/-- The `PumpStatus` enumeration. -/
inductive PumpStatus where
  | PUMP_OFF
  | PUMP_LOW
  | PUMP_HIGH
deriving DecidableEq, Repr

/-- The `SaunaState` enumeration. -/
inductive SaunaState where
  | SAUNA_IDLE
  | SAUNA_TIMER
  | SAUNA_PRESET_A
  | SAUNA_PRESET_B
  | SAUNA_PRESET_C
deriving DecidableEq, Repr

def MIN_TEMPERATURE : Int := 59

def MAX_TEMPERATURE : Int := 104

/-- A runtime command value: a Python `int`, `bool`, `PumpStatus` member or
`SaunaState` member. -/
inductive CommandValue where
  | int (n : Int)
  | bool (b : Bool)
  | pump (p : PumpStatus)
  | sauna (s : SaunaState)
deriving DecidableEq, Repr

/-- The classes appearing as values of `command_type_value_class`. -/
inductive ValueClass where
  | intClass
  | boolClass
  | pumpStatusClass
  | saunaStateClass
deriving DecidableEq, Repr

/-- Python `isinstance` for the classes involved.  `bool` is a subclass of
`int`, and `PumpStatus` / `SaunaState` are `IntEnum`s, hence also subclasses
of `int`; the three proper subclasses are unrelated to one another. -/
def isinstanceOf : CommandValue → ValueClass → Bool
  | .int _, .intClass => true
  | .bool _, .intClass => true
  | .pump _, .intClass => true
  | .sauna _, .intClass => true
  | .bool _, .boolClass => true
  | .pump _, .pumpStatusClass => true
  | .sauna _, .saunaStateClass => true
  | _, _ => false

/-- The numeric value a command value compares as under Python `<` / `>`
against the temperature bounds. -/
def commandValueInt : CommandValue → Int
  | .int n => n
  | .bool b => if b then 1 else 0
  | .pump .PUMP_OFF => 0
  | .pump .PUMP_LOW => 1
  | .pump .PUMP_HIGH => 2
  | .sauna .SAUNA_IDLE => 0
  | .sauna .SAUNA_TIMER => 1
  | .sauna .SAUNA_PRESET_A => 2
  | .sauna .SAUNA_PRESET_B => 3
  | .sauna .SAUNA_PRESET_C => 4

/-- The `command_type_value_class` table of `_validate_command`; the table
lists every `CommandType` member, so the lookup is total. -/
def commandTypeValueClass : CommandType → ValueClass
  | .TEMPERATURE_SETPOINT_FAHRENHEIT => .intClass
  | .PUMP_1 => .pumpStatusClass
  | .PUMP_2 => .pumpStatusClass
  | .PUMP_3 => .pumpStatusClass
  | .PUMP_4 => .pumpStatusClass
  | .PUMP_5 => .pumpStatusClass
  | .BLOWER_1 => .pumpStatusClass
  | .BLOWER_2 => .pumpStatusClass
  | .LIGHTS => .boolClass
  | .STEREO => .boolClass
  | .FILTER => .boolClass
  | .ONZEN => .boolClass
  | .OZONE => .boolClass
  | .EXHAUST_FAN => .boolClass
  | .SAUNA_STATE => .saunaStateClass
  | .SAUNA_TIME_LEFT => .intClass
  | .ALL_ON => .boolClass
  | .FOGGER => .boolClass
  | .SPABOY_BOOST => .boolClass
  | .PACK_RESET => .boolClass
  | .LOG_DUMP => .boolClass
  | .SDS => .boolClass
  | .YESS => .boolClass

/-- The string value of each `CommandType` member (the protobuf field name
set by `write_command`). -/
def commandTypeName : CommandType → String
  | .TEMPERATURE_SETPOINT_FAHRENHEIT => "set_temperature_setpoint_fahrenheit"
  | .PUMP_1 => "set_pump_1"
  | .PUMP_2 => "set_pump_2"
  | .PUMP_3 => "set_pump_3"
  | .PUMP_4 => "set_pump_4"
  | .PUMP_5 => "set_pump_5"
  | .BLOWER_1 => "set_blower_1"
  | .BLOWER_2 => "set_blower_2"
  | .LIGHTS => "set_lights"
  | .STEREO => "set_stereo"
  | .FILTER => "set_filter"
  | .ONZEN => "set_onzen"
  | .OZONE => "set_ozone"
  | .EXHAUST_FAN => "set_exhaust_fan"
  | .SAUNA_STATE => "set_sauna_state"
  | .SAUNA_TIME_LEFT => "set_sauna_time_left"
  | .ALL_ON => "set_all_on"
  | .FOGGER => "set_fogger"
  | .SPABOY_BOOST => "set_spaboy_boost"
  | .PACK_RESET => "set_pack_reset"
  | .LOG_DUMP => "set_log_dump"
  | .SDS => "set_sds"
  | .YESS => "set_yess"

/-- The errors `write_command` can raise: the `TypeError` for a value of the
wrong class and the `ValueError` for an out-of-range temperature (both from
`_validate_command`), plus the `struct.error` escaping from
`Packet.serialize` when the encoded payload does not fit its pack formats. -/
inductive CommandError where
  | typeMismatch
  | outOfRange
  | structError
deriving DecidableEq, Repr

/-- `ArcticSpaClient._validate_command`: check `isinstance` of the value
against the class required by the command type, then check the inclusive
temperature bounds for the setpoint command.  The returned `raw_value` is the
command value itself, since every accepted value satisfies
`isinstance(raw_value, (int, bool))` (enum members are `int`s). -/
def validate_command (command_type : CommandType) (command_value : CommandValue) :
    Except CommandError (String × CommandValue) :=
  let value_class := commandTypeValueClass command_type
  if isinstanceOf command_value value_class = false then .error .typeMismatch
  else if command_type = .TEMPERATURE_SETPOINT_FAHRENHEIT ∧
      commandValueInt command_value < MIN_TEMPERATURE then .error .outOfRange
  else if command_type = .TEMPERATURE_SETPOINT_FAHRENHEIT ∧
      commandValueInt command_value > MAX_TEMPERATURE then .error .outOfRange
  else .ok (commandTypeName command_type, command_value)

/-- `ArcticSpaClient.write_command`: validate first; only on success build the
protobuf `Command` payload (the externally-supplied encoder `enc`), wrap it
in a `Packet` of type `MessageType.COMMAND = 1`, serialize and send those
bytes.  The result is the byte string handed to `sendall`; an error means
nothing was encoded or sent. -/
def write_command (enc : String → CommandValue → List Nat)
    (command_type : CommandType) (command_value : CommandValue) :
    Except CommandError (List Nat) :=
  match validate_command command_type command_value with
  | .error e => .error e
  | .ok (property_name, raw_value) =>
    match Packet.serialize (Packet.init 1 (enc property_name raw_value)) with
    | .ok packet_bytes => .ok packet_bytes
    | .error _ => .error .structError

/-- The provisional frame image of §4.2 step 1 of the specification: magic,
zeroed checksum field, sequence number, `optional = 0`, message type, payload
length, payload — the byte string the CRC is computed over. -/
def frameBody (t seq : Nat) (payload : List Nat) : List Nat :=
  PREAMBLE ++ natBytesBE 4 0 ++ natBytesBE 4 seq ++ natBytesBE 4 0 ++
    natBytesBE 2 t ++ natBytesBE 2 payload.length ++ payload

/-- The declarative frame layout stated by the specification (§4.2 steps
1–4): the provisional image with the checksum field (bytes 4..8, big-endian)
holding the CRC-32 of the provisional image.  This definition follows the
words of the specification; claim C2 compares `Packet.serialize` against it. -/
def serializedLayout (t seq : Nat) (payload : List Nat) : List Nat :=
  PREAMBLE ++ natBytesBE 4 (crc32 (frameBody t seq payload)) ++ natBytesBE 4 seq ++
    natBytesBE 4 0 ++ natBytesBE 2 t ++ natBytesBE 2 payload.length ++ payload

theorem writeAt_patch (a b v r : List Nat) (ha : a.length = 4) (hb : b.length = 4)
    (hv : v.length = 4) : writeAt (a ++ (b ++ r)) 4 v = a ++ (v ++ r) := by
  unfold writeAt
  rw [hv]
  have h1 : (a ++ (b ++ r)).take 4 = a := by
    rw [← ha, List.take_left]
  have h2 : (a ++ (b ++ r)).drop (4 + 4) = r := by
    rw [← List.append_assoc]
    have h : (4 + 4 : Nat) = (a ++ b).length := by simp [ha, hb]
    rw [h, List.drop_left]
  rw [h1, h2, List.append_assoc]

theorem packInt32BE_magic : packInt32BE (-1414718150) = .ok PREAMBLE := by
  rfl

theorem packInt32BE_zero : packInt32BE 0 = .ok (natBytesBE 4 0) := by
  rfl

theorem put_int_ok (b : ByteBuffer) (v : Int) (bytes : List Nat)
    (h : packInt32BE v = .ok bytes) : b.put_int v = .ok (b.put_bytes bytes) := by
  unfold ByteBuffer.put_int
  rw [h]

theorem put_short_ok (b : ByteBuffer) (v : Int) (bytes : List Nat)
    (h : packInt16BE v = .ok bytes) : b.put_short v = .ok (b.put_bytes bytes) := by
  unfold ByteBuffer.put_short
  rw [h]

theorem put_int_at_ok (b : ByteBuffer) (i : Nat) (v : Int) (bytes : List Nat)
    (h : packUInt32BE v = .ok bytes) :
    b.put_int_at i v = .ok ⟨writeAt b.data i bytes, b.capacity⟩ := by
  unfold ByteBuffer.put_int_at
  rw [h]

theorem except_bind_ok {α β : Type} (a : α) (f : α → Except StructError β) :
    (Except.ok a : Except StructError α).bind f = f a :=
  rfl

theorem except_map_ok {α β : Type} (a : α) (f : α → β) :
    (Except.ok a : Except StructError α).map f = .ok (f a) :=
  rfl

theorem natBytesBE_mem_lt (n v : Nat) : ∀ x ∈ natBytesBE n v, x < 256 := by
  induction n generalizing v with
  | zero =>
    intro x hx
    simp [natBytesBE] at hx
  | succ n ih =>
    intro x hx
    rw [natBytesBE] at hx
    rcases List.mem_append.mp hx with h | h
    · exact ih (v / 256) x h
    · have hx2 : x = v % 256 := by simpa using h
      omega

theorem crcRound_lt (c : Nat) (h : c < 2 ^ 32) : crcRound c < 2 ^ 32 := by
  unfold crcRound
  split_ifs
  · exact Nat.xor_lt_two_pow (by omega) (by norm_num)
  · omega

theorem crcRounds_lt (n c : Nat) (h : c < 2 ^ 32) : crcRounds n c < 2 ^ 32 := by
  induction n generalizing c with
  | zero => exact h
  | succ n ih => exact ih (crcRound c) (crcRound_lt c h)

theorem crc32_lt (data : List Nat) (h : ∀ b ∈ data, b < 256) : crc32 data < 2 ^ 32 := by
  unfold crc32
  refine Nat.xor_lt_two_pow ?_ (by norm_num)
  have hfold : ∀ (l : List Nat) (acc : Nat), (∀ b ∈ l, b < 256) → acc < 2 ^ 32 →
      l.foldl (fun c b => crcRounds 8 (Nat.xor c b)) acc < 2 ^ 32 := by
    intro l
    induction l with
    | nil => intro acc _ hacc; exact hacc
    | cons b rest ih =>
      intro acc hl hacc
      rw [List.foldl_cons]
      refine ih _ (fun x hx => hl x (List.mem_cons_of_mem b hx)) ?_
      refine crcRounds_lt 8 _ (Nat.xor_lt_two_pow hacc ?_)
      have hb := hl b (List.mem_cons_self b rest)
      omega
  exact hfold data 0xFFFFFFFF h (by norm_num)

theorem frameBody_mem_lt (t seq : Nat) (payload : List Nat)
    (hb : ∀ b ∈ payload, b < 256) : ∀ x ∈ frameBody t seq payload, x < 256 := by
  intro x hx
  unfold frameBody at hx
  simp only [List.mem_append] at hx
  rcases hx with ((((((h | h) | h) | h) | h) | h) | h)
  · simp [PREAMBLE] at h
    rcases h with h | h | h | h <;> omega
  · exact natBytesBE_mem_lt 4 0 x h
  · exact natBytesBE_mem_lt 4 seq x h
  · exact natBytesBE_mem_lt 4 0 x h
  · exact natBytesBE_mem_lt 2 t x h
  · exact natBytesBE_mem_lt 2 payload.length x h
  · exact hb x h

/-- On the value ranges `struct.pack` accepts (`type` and `size` signed
16-bit, sequence number signed 32-bit, byte-valued payload),
`Packet.serialize` succeeds and produces exactly the declarative layout of
the specification. -/
theorem serialize_eq_layout (t seq : Nat) (payload : List Nat)
    (ht : t < 2 ^ 15) (hs : seq < 2 ^ 31) (hl : payload.length < 2 ^ 15)
    (hb : ∀ b ∈ payload, b < 256) :
    Packet.serialize ⟨seq, 0, t, payload⟩ = .ok (serializedLayout t seq payload) := by
  have hcrc : crc32 (frameBody t seq payload) < 2 ^ 32 :=
    crc32_lt _ (frameBody_mem_lt t seq payload hb)
  unfold Packet.serialize Packet.size
  dsimp only
  rw [put_int_ok _ _ _ packInt32BE_magic, except_bind_ok]
  try dsimp only
  rw [put_int_ok _ _ _ packInt32BE_zero, except_bind_ok]
  try dsimp only
  rw [put_int_ok _ _ _ (packInt32BE_ofNat seq hs), except_bind_ok]
  try dsimp only
  rw [put_int_ok _ _ _ (packInt32BE_ofNat 0 (by norm_num)), except_bind_ok]
  try dsimp only
  rw [put_short_ok _ _ _ (packInt16BE_ofNat t ht), except_bind_ok]
  try dsimp only
  rw [put_short_ok _ _ _ (packInt16BE_ofNat payload.length hl), except_bind_ok]
  dsimp only [ByteBuffer.put_bytes, ByteBuffer.allocate]
  have hfb : (([] : List Nat) ++ PREAMBLE ++ natBytesBE 4 0 ++ natBytesBE 4 seq ++
      natBytesBE 4 0 ++ natBytesBE 2 t ++ natBytesBE 2 payload.length ++ payload) =
      frameBody t seq payload := by
    simp [frameBody]
  rw [hfb, put_int_at_ok _ _ _ _ (packUInt32BE_ofNat _ hcrc), except_map_ok]
  dsimp only
  unfold serializedLayout frameBody
  simp only [List.append_assoc]
  rw [writeAt_patch _ _ _ _ (by decide) (by rw [natBytesBE_length]) (by rw [natBytesBE_length])]

theorem validTypes_lt (x : Nat) (h : x ∈ validTypes) : x < 2 ^ 16 := by
  fin_cases h <;> decide

theorem decode_one_explicit
    (c0 c1 c2 c3 s0 s1 s2 s3 t0 t1 l0 l1 : Nat) (payload rest : List Nat)
    (t seq : Nat)
    (ht : t0 * 256 + t1 = t)
    (hs : s0 * 2 ^ 24 + s1 * 2 ^ 16 + s2 * 2 ^ 8 + s3 = seq)
    (hl : l0 * 256 + l1 = payload.length)
    (hv : t ∈ validTypes) :
    decode_one (0xAB :: 0xAD :: 0x1D :: 0x3A :: c0 :: c1 :: c2 :: c3 ::
        s0 :: s1 :: s2 :: s3 :: 0 :: 0 :: 0 :: 0 :: t0 :: t1 :: l0 :: l1 :: (payload ++ rest)) =
      .ok ((if t ≠ HEARTBEAT ∧ t ∈ decoderTypes then
            some ⟨t, seq, [c0, c1, c2, c3], payload⟩ else none), rest) := by
  set L := (0xAB :: 0xAD :: 0x1D :: 0x3A :: c0 :: c1 :: c2 :: c3 ::
      s0 :: s1 :: s2 :: s3 :: 0 :: 0 :: 0 :: 0 :: t0 :: t1 :: l0 :: l1 ::
      (payload ++ rest)) with hL
  have e1 : ¬ L.length < 20 := by rw [hL]; simp
  have e2 : ¬ L.take 4 ≠ PREAMBLE := by rw [hL]; exact fun h => h rfl
  have e3 : read16 L 16 = t := by rw [hL]; exact ht
  have e4 : read16 L 18 = payload.length := by rw [hL]; exact hl
  have e5 : read32 L 8 = seq := by rw [hL]; exact hs
  have e6 : (L.drop 4).take 4 = [c0, c1, c2, c3] := by rw [hL]; rfl
  have e7 : (L.drop 20).take payload.length = payload := by
    rw [hL]
    show (payload ++ rest).take payload.length = payload
    exact List.take_left payload rest
  have e8 : L.drop (20 + payload.length) = rest := by
    rw [hL, Nat.add_comm]
    show (payload ++ rest).drop payload.length = rest
    exact List.drop_left payload rest
  unfold decode_one HEADER_SIZE
  rw [if_neg e1, if_neg e2]
  dsimp only
  rw [e3, e4, if_pos hv, e5, e6, e7, e8]

/-- Decoding a laid-out frame (with arbitrary trailing bytes): the header and
declared payload are consumed exactly, the preamble matches, and a message
carrying the encoded type, sequence number and payload is produced unless the
type is a heartbeat or has no registered decoder. -/
theorem decode_one_layout (t seq : Nat) (payload rest : List Nat)
    (hv : t ∈ validTypes) (hs : seq < 2 ^ 32) (hl : payload.length < 2 ^ 16) :
    decode_one (serializedLayout t seq payload ++ rest) =
      .ok ((if t ≠ HEARTBEAT ∧ t ∈ decoderTypes then
            some ⟨t, seq, natBytesBE 4 (crc32 (frameBody t seq payload)), payload⟩
           else none), rest) := by
  have ht : t < 2 ^ 16 := validTypes_lt t hv
  unfold serializedLayout
  rw [natBytesBE_four (crc32 (frameBody t seq payload)), natBytesBE_four seq,
    natBytesBE_two t, natBytesBE_two payload.length,
    show natBytesBE 4 0 = [0, 0, 0, 0] from by decide,
    show PREAMBLE = [0xAB, 0xAD, 0x1D, 0x3A] from rfl]
  simp only [List.cons_append, List.nil_append, List.append_assoc]
  rw [decode_one_explicit _ _ _ _ _ _ _ _ _ _ _ _ payload rest t seq
    (by omega) (by omega) (by omega) hv]

theorem decoderTypes_mem_validTypes (x : Nat) (h : x ∈ decoderTypes) : x ∈ validTypes := by
  fin_cases h <;> decide

theorem decoderTypes_ne_heartbeat (x : Nat) (h : x ∈ decoderTypes) : x ≠ HEARTBEAT := by
  fin_cases h <;> decide

theorem ldiff_zero (n : Nat) : Nat.ldiff n 0 = n := by
  apply Nat.eq_of_testBit_eq
  intro i
  simp [Nat.testBit_ldiff]

theorem neg_one_land (n : Nat) : Int.land (-1) (n : Int) = (n : Int) := by
  show Int.land (Int.negSucc 0) (Int.ofNat n) = Int.ofNat n
  rw [show Int.land (Int.negSucc 0) (Int.ofNat n) = ((Nat.ldiff n 0 : Nat) : Int) from rfl,
    ldiff_zero]
  rfl

/-- C1 counterexample: for sequence number `2^31` (a valid `uint32`)
`Packet.serialize` does not produce bytes at all — `struct.pack('>i',
self.sequence_number)` raises `struct.error` because the value exceeds the
signed 32-bit range — so there are no encoded bytes whose decoding could
yield the message, refuting the round trip as claimed for every sequence
number. -/
theorem c1_counterexample :
    Packet.serialize ⟨2 ^ 31, 0, 0, []⟩ = .error .packOutOfRange ∧ (0 : Nat) ∈ decoderTypes := by
  refine ⟨?_, by decide⟩
  rfl

/-- C1 as amended.  On the inputs `struct.pack` accepts — a registered
message type, a sequence number below `2^31` (the signed 32-bit bound of
format `>i`), a byte-valued payload shorter than `2^15` (the signed 16-bit
bound of format `>h` used for the size field) — encoding succeeds, and
decoding the produced bytes yields exactly one `Message` whose type, sequence
counter and payload equal the encoded inputs, together with an empty
remainder.  For a sequence number in `[2^31, 2^32)` or a payload length in
`[2^15, 2^16)` the encoder instead raises `struct.error` (see the
counterexample). -/
theorem c1_round_trip (t seq : Nat) (payload : List Nat)
    (hdec : t ∈ decoderTypes) (hs : seq < 2 ^ 31) (hl : payload.length < 2 ^ 15)
    (hb : ∀ b ∈ payload, b < 256) :
    Packet.serialize ⟨seq, 0, t, payload⟩ = .ok (serializedLayout t seq payload) ∧
    decode_one (serializedLayout t seq payload) =
      .ok (some ⟨t, seq, natBytesBE 4 (crc32 (frameBody t seq payload)), payload⟩, []) := by
  have hv : t ∈ validTypes := decoderTypes_mem_validTypes t hdec
  have hne : t ≠ HEARTBEAT := decoderTypes_ne_heartbeat t hdec
  have ht : t < 2 ^ 15 := by fin_cases hdec <;> decide
  refine ⟨serialize_eq_layout t seq payload ht hs hl hb, ?_⟩
  have h := decode_one_layout t seq payload [] hv (by omega) (by omega)
  rw [List.append_nil] at h
  rw [h, if_pos ⟨hne, hdec⟩]

/-- C1 witness: the round trip at a concrete input. -/
theorem c1_round_trip_witness :
    (0 : Nat) ∈ decoderTypes ∧ (7 : Nat) < 2 ^ 31 ∧ ([1, 2, 3] : List Nat).length < 2 ^ 15 ∧
    Packet.serialize ⟨7, 0, 0, [1, 2, 3]⟩ = .ok (serializedLayout 0 7 [1, 2, 3]) ∧
    decode_one (serializedLayout 0 7 [1, 2, 3]) =
      .ok (some ⟨0, 7, natBytesBE 4 (crc32 (frameBody 0 7 [1, 2, 3])), [1, 2, 3]⟩, []) := by
  have h := c1_round_trip 0 7 [1, 2, 3] (by decide) (by decide) (by decide) (by decide)
  exact ⟨by decide, by decide, by decide, h.1, h.2⟩

/-- C2 counterexample: for message type `2^15` (a valid `uint16`)
`Packet.serialize` returns no layout at all — `struct.pack('>h', self.type)`
raises `struct.error` because the value exceeds the signed 16-bit range —
refuting the claimed layout for every message type, sequence number and
payload. -/
theorem c2_counterexample :
    Packet.serialize ⟨0, 0, 2 ^ 15, []⟩ = .error .packOutOfRange := by
  rfl

/-- C2 as amended.  On the value ranges `struct.pack` accepts (message type
and payload length below `2^15`, the signed 16-bit bound of format `>h`;
sequence number below `2^31`, the signed 32-bit bound of format `>i`;
byte-valued payload), `Packet.serialize` succeeds and returns a buffer of
length `len(payload) + 20` laid out as magic constant, checksum field,
sequence number, `optional = 0`, message type, `payloadLength =
len(payload)`, then payload, where the checksum field (bytes 4..8,
big-endian) holds the zlib CRC-32 of the entire buffer taken with the
checksum field zeroed, patched in after the CRC is computed
(`serializedLayout` is that declarative layout).  Outside those ranges the
encoder raises `struct.error` (see the counterexample). -/
theorem c2_encode_layout (t seq : Nat) (payload : List Nat)
    (ht : t < 2 ^ 15) (hs : seq < 2 ^ 31) (hl : payload.length < 2 ^ 15)
    (hb : ∀ b ∈ payload, b < 256) :
    Packet.serialize ⟨seq, 0, t, payload⟩ = .ok (serializedLayout t seq payload) ∧
    (serializedLayout t seq payload).length = payload.length + 20 := by
  refine ⟨serialize_eq_layout t seq payload ht hs hl hb, ?_⟩
  unfold serializedLayout
  simp [natBytesBE_length, PREAMBLE]
  omega

/-- C2 witness: the layout at a concrete input. -/
theorem c2_encode_layout_witness :
    (1 : Nat) < 2 ^ 15 ∧ (0 : Nat) < 2 ^ 31 ∧ ([1, 2, 3] : List Nat).length < 2 ^ 15 ∧
    Packet.serialize ⟨0, 0, 1, [1, 2, 3]⟩ = .ok (serializedLayout 1 0 [1, 2, 3]) ∧
    (serializedLayout 1 0 [1, 2, 3]).length = 23 := by
  have h := c2_encode_layout 1 0 [1, 2, 3] (by decide) (by decide) (by decide) (by decide)
  exact ⟨by decide, by decide, by decide, h.1, h.2⟩

/-- C3 counterexample: the 20-byte frame below is well-formed in the sense of
the claim (it has at least 20 bytes and the correct preamble) and its message
type `11` has no registered decoder, yet `decode_one` does not skip it: the
`MessageType(header[6])` conversion raises (`11` is not a member of the
enumeration), so the frame is surfaced to the caller as an error and nothing
is consumed. -/
theorem c3_counterexample :
    decode_one [0xAB, 0xAD, 0x1D, 0x3A, 0, 0, 0, 0, 0, 0, 0, 0, 0, 0, 0, 0, 0, 11, 0, 0] =
      .error (.invalidMessageType 11) ∧ (11 : Nat) ∉ decoderTypes := by
  refine ⟨?_, by decide⟩
  rfl

/-- C3 as amended.  For every well-formed frame (at least 20 bytes, correct
preamble) whose message type id is a member of the `MessageType`
enumeration, `decode_one` produces no message exactly when the type is
`HEARTBEAT` or has no registered decoder; in every such case the header and
declared payload bytes are consumed (the remainder begins right after the
declared payload) and no error is surfaced.  (Type ids outside the
enumeration instead raise a decode error — see the counterexample.) -/
theorem c3_skip_semantics (data : List Nat) (h20 : 20 ≤ data.length)
    (hpre : data.take 4 = PREAMBLE) (hv : read16 data 16 ∈ validTypes) :
    decode_one data =
      .ok ((if read16 data 16 = HEARTBEAT ∨ read16 data 16 ∉ decoderTypes then none
            else some ⟨read16 data 16, read32 data 8, (data.drop 4).take 4,
              (data.drop 20).take (read16 data 18)⟩),
           data.drop (20 + read16 data 18)) := by
  unfold decode_one HEADER_SIZE
  rw [if_neg (by omega), if_neg (by rw [hpre]; exact fun h => h rfl)]
  dsimp only
  rw [if_pos hv]
  split_ifs with h1 h2 <;> first | rfl | tauto

/-- C3 witness: a heartbeat frame with one declared payload byte followed by
one trailing byte is skipped (no message, no error) and consumption stops
exactly after the declared payload. -/
theorem c3_skip_semantics_witness :
    20 ≤ ([0xAB, 0xAD, 0x1D, 0x3A, 1, 2, 3, 4, 0, 0, 0, 7, 0, 0, 0, 0, 0, 10, 0, 1, 99,
      55] : List Nat).length ∧
    decode_one [0xAB, 0xAD, 0x1D, 0x3A, 1, 2, 3, 4, 0, 0, 0, 7, 0, 0, 0, 0, 0, 10, 0, 1, 99, 55] =
      .ok (none, [55]) :=
  ⟨by decide,
   (c3_skip_semantics
      [0xAB, 0xAD, 0x1D, 0x3A, 1, 2, 3, 4, 0, 0, 0, 7, 0, 0, 0, 0, 0, 10, 0, 1, 99, 55]
      (by decide) (by decide) (by decide)).trans rfl⟩

/-- C4.  The claim asks for a distinct "need more data" signal
(`TruncatedPayload`) when the buffer is shorter than `20 + payloadLength`;
the code has no such signal.  On the frame below — a complete 20-byte header
of registered type `0` declaring a 5-byte payload, with no payload bytes
available — `decode_one` silently returns a `Message` with a 0-byte payload
and an empty remainder, as if the frame were complete. -/
theorem c4_truncation_unsignalled :
    (([0xAB, 0xAD, 0x1D, 0x3A, 0, 0, 0, 0, 0, 0, 0, 0, 0, 0, 0, 0, 0, 0, 0, 5] : List Nat).length
        < 20 + read16 [0xAB, 0xAD, 0x1D, 0x3A, 0, 0, 0, 0, 0, 0, 0, 0, 0, 0, 0, 0, 0, 0, 0, 5] 18) ∧
    decode_one [0xAB, 0xAD, 0x1D, 0x3A, 0, 0, 0, 0, 0, 0, 0, 0, 0, 0, 0, 0, 0, 0, 0, 5] =
      .ok (some ⟨0, 0, [0, 0, 0, 0], []⟩, []) := by
  refine ⟨by decide, ?_⟩
  rfl

/-- C10 counterexample: for message type `2^15` the claim "checksum_valid
returns True for every Packet" fails — `struct.pack('>h', self.type)` raises
`struct.error` while the frame image is being rebuilt, before the acceptance
test is ever reached. -/
theorem c10_counterexample :
    Packet.checksum_valid ⟨0, 0, 2 ^ 15, []⟩ = .error .packOutOfRange := by
  rfl

/-- C10 as amended.  For every packet whose fields are within the ranges
`struct.pack` accepts (sequence number and optional below `2^31`, type and
payload length below `2^15`), `Packet.checksum_valid` returns `True`: its
acceptance test compares `-1 &&& crc32` with `crc32`, and bitwise-and with
the Python integer `-1` (all ones) is the identity on the non-negative
`crc32`, so the check never rejects anything.  Outside those ranges it
raises `struct.error` before the test (see the counterexample). -/
theorem c10_checksum_always_valid (p : Packet)
    (hseq : p.sequence_number < 2 ^ 31) (hopt : p.optional < 2 ^ 31)
    (ht : p.type < 2 ^ 15) (hl : p.payload.length < 2 ^ 15) :
    p.checksum_valid = .ok true := by
  unfold Packet.checksum_valid Packet.size
  rw [put_int_ok _ _ _ (show packInt32BE (-1414717974) =
      .ok (natBytesBE 4 2880249322) from by rfl), except_bind_ok]
  try dsimp only
  rw [put_int_ok _ _ _ packInt32BE_zero, except_bind_ok]
  try dsimp only
  rw [put_int_ok _ _ _ (packInt32BE_ofNat p.sequence_number hseq), except_bind_ok]
  try dsimp only
  rw [put_int_ok _ _ _ (packInt32BE_ofNat p.optional hopt), except_bind_ok]
  try dsimp only
  rw [put_short_ok _ _ _ (packInt16BE_ofNat p.type ht), except_bind_ok]
  try dsimp only
  rw [put_short_ok _ _ _ (packInt16BE_ofNat p.payload.length hl), except_bind_ok]
  try dsimp only
  rw [if_pos (neg_one_land _)]

/-- C10 witness: a concrete in-range packet is accepted. -/
theorem c10_checksum_always_valid_witness :
    (⟨1, 0, 3, [5]⟩ : Packet).sequence_number < 2 ^ 31 ∧
    (⟨1, 0, 3, [5]⟩ : Packet).type < 2 ^ 15 ∧
    Packet.checksum_valid ⟨1, 0, 3, [5]⟩ = .ok true :=
  ⟨by decide, by decide,
   c10_checksum_always_valid ⟨1, 0, 3, [5]⟩ (by decide) (by decide) (by decide) (by decide)⟩

theorem connectSyncGo_success (outcomes : Nat → Outcome) (j : Nat) :
    ∀ fuel performed, j < fuel →
      (∀ k, k < j → outcomes (performed + k) = .timedOut) →
      outcomes (performed + j) = .success →
      connectSyncGo outcomes fuel performed = (true, performed + j + 1) := by
  induction j with
  | zero =>
    intro fuel performed hj hk hok
    cases fuel with
    | zero => omega
    | succ fuel =>
      unfold connectSyncGo
      rw [Nat.add_zero] at hok
      rw [hok]
  | succ j ih =>
    intro fuel performed hj hk hok
    cases fuel with
    | zero => omega
    | succ fuel =>
      unfold connectSyncGo
      rw [show outcomes performed = .timedOut from by simpa using hk 0 (by omega)]
      rw [ih fuel (performed + 1) (by omega)
        (fun k hk2 => by
          have h2 := hk (k + 1) (by omega)
          rwa [show performed + (k + 1) = performed + 1 + k from by omega] at h2)
        (by rwa [show performed + 1 + j = performed + (j + 1) from by omega])]
      rw [show performed + 1 + j + 1 = performed + (j + 1) + 1 from by omega]

theorem connectSyncGo_refused (outcomes : Nat → Outcome) (j : Nat) :
    ∀ fuel performed, j < fuel →
      (∀ k, k < j → outcomes (performed + k) = .timedOut) →
      outcomes (performed + j) = .refused →
      connectSyncGo outcomes fuel performed = (false, performed + j + 1) := by
  induction j with
  | zero =>
    intro fuel performed hj hk hok
    cases fuel with
    | zero => omega
    | succ fuel =>
      unfold connectSyncGo
      rw [Nat.add_zero] at hok
      rw [hok]
  | succ j ih =>
    intro fuel performed hj hk hok
    cases fuel with
    | zero => omega
    | succ fuel =>
      unfold connectSyncGo
      rw [show outcomes performed = .timedOut from by simpa using hk 0 (by omega)]
      rw [ih fuel (performed + 1) (by omega)
        (fun k hk2 => by
          have h2 := hk (k + 1) (by omega)
          rwa [show performed + (k + 1) = performed + 1 + k from by omega] at h2)
        (by rwa [show performed + 1 + j = performed + (j + 1) from by omega])]
      rw [show performed + 1 + j + 1 = performed + (j + 1) + 1 from by omega]

theorem connectSyncGo_allTimeout (outcomes : Nat → Outcome) (fuel : Nat) :
    ∀ performed, (∀ k, k < fuel → outcomes (performed + k) = .timedOut) →
      connectSyncGo outcomes fuel performed = (false, performed + fuel) := by
  induction fuel with
  | zero => intro performed _; rfl
  | succ fuel ih =>
    intro performed hk
    unfold connectSyncGo
    rw [show outcomes performed = .timedOut from by simpa using hk 0 (by omega)]
    rw [ih (performed + 1)
      (fun k hk2 => by
        have h2 := hk (k + 1) (by omega)
        rwa [show performed + (k + 1) = performed + 1 + k from by omega] at h2)]
    rw [show performed + 1 + fuel = performed + (fuel + 1) from by omega]

theorem connectSyncGo_true_iff (outcomes : Nat → Outcome) (fuel : Nat) :
    ∀ performed, (connectSyncGo outcomes fuel performed).1 = true ↔
      ∃ j, j < fuel ∧ outcomes (performed + j) = .success ∧
        ∀ k, k < j → outcomes (performed + k) = .timedOut := by
  induction fuel with
  | zero =>
    intro performed
    constructor
    · intro h
      exact absurd h (by simp [connectSyncGo])
    · rintro ⟨j, hj, -⟩
      omega
  | succ fuel ih =>
    intro performed
    unfold connectSyncGo
    cases ho : outcomes performed with
    | success =>
      simp only [true_iff]
      exact ⟨0, by omega, by simpa using ho, fun k hk => by omega⟩
    | timedOut =>
      rw [ih (performed + 1)]
      constructor
      · rintro ⟨j, hj, hsucc, hk⟩
        refine ⟨j + 1, by omega,
          by rwa [show performed + (j + 1) = performed + 1 + j from by omega], ?_⟩
        intro k hk2
        cases k with
        | zero => simpa using ho
        | succ k =>
          have h2 := hk k (by omega)
          rwa [show performed + 1 + k = performed + (k + 1) from by omega] at h2
      · rintro ⟨j, hj, hsucc, hk⟩
        cases j with
        | zero =>
          rw [Nat.add_zero, ho] at hsucc
          exact Outcome.noConfusion hsucc
        | succ j =>
          refine ⟨j, by omega,
            by rwa [show performed + 1 + j = performed + (j + 1) from by omega], ?_⟩
          intro k hk2
          have h2 := hk (k + 1) (by omega)
          rwa [show performed + (k + 1) = performed + 1 + k from by omega] at h2
    | refused =>
      constructor
      · intro h
        exact absurd h (by simp)
      · rintro ⟨j, hj, hsucc, hk⟩
        cases j with
        | zero =>
          rw [Nat.add_zero, ho] at hsucc
          exact Outcome.noConfusion hsucc
        | succ j =>
          have h2 := hk 0 (by omega)
          rw [Nat.add_zero, ho] at h2
          exact Outcome.noConfusion h2

/-- C5.  Connect retry, on the synchronous client: a per-attempt timeout
advances to the next attempt (all-timeout runs exhaust exactly `attempts`
attempts); any other connection-refusal error returns failure immediately
after that attempt with no further retries; the first successful attempt
stops the loop at once with no further attempts; and the call returns `true`
iff some attempt succeeded (i.e. a connection is open at the end).  The
second component counts the connection attempts actually performed. -/
theorem c5_connect_retry (attempts : Nat) (outcomes : Nat → Outcome) :
    (∀ j, j < attempts → (∀ k, k < j → outcomes k = .timedOut) →
       outcomes j = .success → connectSync attempts outcomes = (true, j + 1)) ∧
    (∀ j, j < attempts → (∀ k, k < j → outcomes k = .timedOut) →
       outcomes j = .refused → connectSync attempts outcomes = (false, j + 1)) ∧
    ((∀ k, k < attempts → outcomes k = .timedOut) →
       connectSync attempts outcomes = (false, attempts)) ∧
    ((connectSync attempts outcomes).1 = true ↔
       ∃ j, j < attempts ∧ outcomes j = .success ∧ ∀ k, k < j → outcomes k = .timedOut) := by
  refine ⟨?_, ?_, ?_, ?_⟩
  · intro j hj hk hok
    have h := connectSyncGo_success outcomes j attempts 0 hj
      (fun k hk2 => by rw [Nat.zero_add]; exact hk k hk2)
      (by rw [Nat.zero_add]; exact hok)
    simpa [connectSync] using h
  · intro j hj hk hok
    have h := connectSyncGo_refused outcomes j attempts 0 hj
      (fun k hk2 => by rw [Nat.zero_add]; exact hk k hk2)
      (by rw [Nat.zero_add]; exact hok)
    simpa [connectSync] using h
  · intro hk
    have h := connectSyncGo_allTimeout outcomes attempts 0
      (fun k hk2 => by rw [Nat.zero_add]; exact hk k hk2)
    simpa [connectSync] using h
  · rw [connectSync, connectSyncGo_true_iff outcomes attempts 0]
    simp only [Nat.zero_add]

/-- A concrete run for the C5 witness: the first attempt times out, every
later one succeeds. -/
def c5outcomes : Nat → Outcome :=
  fun k => if k = 0 then .timedOut else .success

/-- C5 witness: with three allowed attempts, a timeout followed by a success
yields `true` after exactly two attempts. -/
theorem c5_connect_retry_witness :
    c5outcomes 0 = .timedOut ∧ c5outcomes 1 = .success ∧
    connectSync 3 c5outcomes = (true, 2) :=
  ⟨rfl, rfl,
   (c5_connect_retry 3 c5outcomes).1 1 (by omega)
     (fun k hk => by
       have h : k = 0 := by omega
       rw [h]
       rfl)
     rfl⟩

/-- The transport outcomes exhibiting the C9 divergence: the first attempt
succeeds, any further attempt is refused. -/
def c9outcomes : Nat → Outcome :=
  fun k => if k = 0 then .success else .refused

/-- C9.  The two connect implementations are not behaviorally equivalent: on
`connect(attempts = 1)` with transport outcomes success-then-refused, the
synchronous client (`client.py`) breaks out of the loop after the successful
first attempt and returns `true` having performed one attempt, while the
async client (`arctic_spa_client.py`), which never breaks on success, keeps
looping, performs a second attempt, hits the refusal, and returns `false`
after two attempts. -/
theorem c9_variant_divergence :
    connectSync 1 c9outcomes = (true, 1) ∧
    connectAsync 1 c9outcomes 10 = some (false, 2) :=
  ⟨rfl, rfl⟩

/-- C7.  Command validation is pure and runs before any bytes are produced or
sent: a validation error makes `write_command` fail with that same error for
every possible payload encoder, with no packet built.  The temperature
setpoint accepts exactly the integers in the inclusive range 59..104 (58
fails `OutOfRange` while 59 and 104 succeed), and a value of the wrong shape
for its kind fails `TypeMismatch` (`PUMP_1` with a `bool` fails while
`PUMP_1` with `PUMP_HIGH` succeeds). -/
theorem c7_command_validation :
    (∀ (enc : String → CommandValue → List Nat) ct v e,
       validate_command ct v = .error e → write_command enc ct v = .error e) ∧
    (∀ v, (validate_command .TEMPERATURE_SETPOINT_FAHRENHEIT v).isOk = true ↔
       ∃ n, v = .int n ∧ 59 ≤ n ∧ n ≤ 104) ∧
    validate_command .TEMPERATURE_SETPOINT_FAHRENHEIT (.int 58) = .error .outOfRange ∧
    (validate_command .TEMPERATURE_SETPOINT_FAHRENHEIT (.int 59)).isOk = true ∧
    (validate_command .TEMPERATURE_SETPOINT_FAHRENHEIT (.int 104)).isOk = true ∧
    validate_command .PUMP_1 (.bool true) = .error .typeMismatch ∧
    (validate_command .PUMP_1 (.pump .PUMP_HIGH)).isOk = true := by
  refine ⟨?_, ?_, rfl, rfl, rfl, rfl, rfl⟩
  · intro enc ct v e h
    unfold write_command
    rw [h]
  · intro v
    constructor
    · intro h
      match v with
      | .int n =>
        unfold validate_command at h
        rw [if_neg (by simp [isinstanceOf, commandTypeValueClass])] at h
        dsimp only [commandValueInt] at h
        split_ifs at h with h1 h2
        · exact Bool.noConfusion h
        · exact Bool.noConfusion h
        · have hge : ¬ n < MIN_TEMPERATURE := fun hlt => h1 ⟨rfl, hlt⟩
          have hle : ¬ n > MAX_TEMPERATURE := fun hgt => h2 ⟨rfl, hgt⟩
          simp only [MIN_TEMPERATURE] at hge
          simp only [MAX_TEMPERATURE] at hle
          exact ⟨n, rfl, by omega, by omega⟩
      | .bool b =>
        exfalso
        cases b <;> exact Bool.noConfusion h
      | .pump p =>
        exfalso
        cases p <;> exact Bool.noConfusion h
      | .sauna s =>
        exfalso
        cases s <;> exact Bool.noConfusion h
    · rintro ⟨n, rfl, h1, h2⟩
      unfold validate_command
      rw [if_neg (by simp [isinstanceOf, commandTypeValueClass])]
      dsimp only [commandValueInt]
      rw [if_neg (by
          rintro ⟨-, hlt⟩
          simp only [MIN_TEMPERATURE] at hlt
          omega),
        if_neg (by
          rintro ⟨-, hgt⟩
          simp only [MAX_TEMPERATURE] at hgt
          omega)]
      rfl

/-- An encoder instance for the C7 witness. -/
def c7enc : String → CommandValue → List Nat :=
  fun _ _ => []

/-- C7 witness: a pump command with an integer value fails validation with
`TypeMismatch`, and `write_command` propagates exactly that error (nothing is
encoded or sent). -/
theorem c7_command_validation_witness :
    validate_command .PUMP_2 (.int 3) = .error .typeMismatch ∧
    write_command c7enc .PUMP_2 (.int 3) = .error .typeMismatch :=
  ⟨rfl, c7_command_validation.1 c7enc .PUMP_2 (.int 3) .typeMismatch rfl⟩

/-- One step of the "last message of this type seen so far" accumulator. -/
def lastStep (t : Nat) (acc : Option Message) (m? : Option Message) : Option Message :=
  match m? with
  | some m => if m.message_type = t then some m else acc
  | none => acc

/-- The last non-`None` message of type `t` in a decoded stream, if any. -/
def lastOfType (t : Nat) (msgs : List (Option Message)) : Option Message :=
  msgs.foldl (lastStep t) none

/-- All messages delivered by the oracle reads `0..k`, in order. -/
def seenUpTo (reads : List (Bool × List (Option Message))) (k : Nat) :
    List (Option Message) :=
  ((reads.take (k + 1)).map Prod.snd).flatten

/-- Whether the deadline test fires at the top of iteration `k`. -/
def expiredAt (reads : List (Bool × List (Option Message))) (k : Nat) : Bool :=
  (reads.getD k (false, [])).1

/-- Every requested type has been observed at least once in the stream. -/
def allObserved (types : List Nat) (msgs : List (Option Message)) : Bool :=
  types.all fun t => (lastOfType t msgs).isSome

theorem lastStep_foldl (t : Nat) (msgs : List (Option Message)) :
    ∀ a, msgs.foldl (lastStep t) a =
      match msgs.foldl (lastStep t) none with
      | some m => some m
      | none => a := by
  induction msgs with
  | nil => intro a; rfl
  | cons m? rest ih =>
    intro a
    rw [List.foldl_cons, List.foldl_cons, ih (lastStep t a m?), ih (lastStep t none m?)]
    cases hr : rest.foldl (lastStep t) none with
    | some m => rfl
    | none =>
      cases m? with
      | none => rfl
      | some m =>
        dsimp only [lastStep]
        split_ifs with h <;> rfl

theorem lastOfType_append (t : Nat) (c1 c2 : List (Option Message)) :
    lastOfType t (c1 ++ c2) =
      match lastOfType t c2 with
      | some m => some m
      | none => lastOfType t c1 := by
  unfold lastOfType
  rw [List.foldl_append, lastStep_foldl t c2 (c1.foldl (lastStep t) none)]

theorem dictSet_mem_keys (d : PollDict) (k : Nat) (m : Message) (t : Nat) :
    t ∈ (dictSet d k m).keys ↔ t ∈ d.keys ∨ t = k := by
  unfold dictSet
  dsimp only
  split_ifs with h
  · exact ⟨Or.inl, fun hor => hor.elim id (fun he => he ▸ h)⟩
  · simp [List.mem_append]

theorem processChunk_append (d : PollDict) (c1 c2 : List (Option Message)) :
    processChunk d (c1 ++ c2) = processChunk (processChunk d c1) c2 := by
  simp [processChunk, List.foldl_append]

theorem processChunk_val (t : Nat) (chunk : List (Option Message)) :
    ∀ d : PollDict, (processChunk d chunk).val t =
      match lastOfType t chunk with
      | some m => some m
      | none => d.val t := by
  induction chunk with
  | nil => intro d; rfl
  | cons m? rest ih =>
    intro d
    unfold processChunk at ih ⊢
    rw [List.foldl_cons, ih (pollStep d m?)]
    unfold lastOfType
    rw [List.foldl_cons, lastStep_foldl t rest (lastStep t none m?)]
    cases hr : rest.foldl (lastStep t) none with
    | some m => rfl
    | none =>
      cases m? with
      | none => rfl
      | some m =>
        dsimp only [lastStep, pollStep]
        by_cases h : m.message_type = t
        · rw [if_pos h]
          unfold dictSet
          dsimp only
          rw [if_pos h.symm]
        · rw [if_neg h]
          unfold dictSet
          dsimp only
          rw [if_neg (fun he => h he.symm)]

theorem processChunk_mem_keys (t : Nat) (chunk : List (Option Message)) :
    ∀ d : PollDict, t ∈ (processChunk d chunk).keys ↔
      t ∈ d.keys ∨ (lastOfType t chunk).isSome := by
  induction chunk with
  | nil => intro d; simp [processChunk, lastOfType]
  | cons m? rest ih =>
    intro d
    unfold processChunk at ih ⊢
    rw [List.foldl_cons, ih (pollStep d m?)]
    unfold lastOfType
    rw [List.foldl_cons, lastStep_foldl t rest (lastStep t none m?)]
    cases hr : rest.foldl (lastStep t) none with
    | some m => simp
    | none =>
      cases m? with
      | none => simp [pollStep, lastStep]
      | some m =>
        dsimp only [lastStep, pollStep]
        by_cases h : m.message_type = t
        · rw [if_pos h, dictSet_mem_keys]
          simp [h]
        · rw [if_neg h, dictSet_mem_keys]
          simp only [Option.isSome_none, Bool.false_eq_true, or_false]
          exact ⟨fun hor => hor.elim id (fun he => absurd he.symm h), Or.inl⟩

theorem dictHasNone_false_iff (d : PollDict) :
    dictHasNone d = false ↔ ∀ t ∈ d.keys, (d.val t).isSome := by
  unfold dictHasNone
  rw [List.any_eq_false]
  constructor
  · intro h t ht
    have h2 := h t ht
    cases hv : d.val t with
    | none => rw [hv] at h2; exact absurd rfl h2
    | some m => simp
  · intro h t ht
    have h2 := h t ht
    cases hv : d.val t with
    | none => rw [hv] at h2; exact absurd h2 (by simp)
    | some m => simp [hv]

theorem allObserved_true_iff (types : List Nat) (msgs : List (Option Message)) :
    allObserved types msgs = true ↔ ∀ t ∈ types, (lastOfType t msgs).isSome := by
  simp [allObserved, List.all_eq_true]

theorem hasNone_processed (types : List Nat) (msgs : List (Option Message)) :
    dictHasNone (processChunk (initialPollDict types) msgs) = false ↔
      allObserved types msgs = true := by
  rw [dictHasNone_false_iff, allObserved_true_iff]
  constructor
  · intro h t ht
    have hk : t ∈ (processChunk (initialPollDict types) msgs).keys := by
      rw [processChunk_mem_keys]
      exact Or.inl ht
    have h2 := h t hk
    rw [processChunk_val] at h2
    cases hl : lastOfType t msgs with
    | some m => simp
    | none => rw [hl] at h2; exact absurd h2 (by simp [initialPollDict])
  · intro h t hk
    rw [processChunk_val]
    rw [processChunk_mem_keys] at hk
    cases hl : lastOfType t msgs with
    | some m => simp
    | none =>
      rcases hk with ht | hsome
      · have h2 := h t ht
        rw [hl] at h2
        exact absurd h2 (by simp)
      · rw [hl] at hsome
        exact absurd hsome (by simp)

theorem dictGet_processed (types : List Nat) (msgs : List (Option Message)) (t : Nat) :
    dictGet (processChunk (initialPollDict types) msgs) t =
      if t ∈ types ∨ (lastOfType t msgs).isSome
      then some (lastOfType t msgs) else none := by
  unfold dictGet
  have hval : (processChunk (initialPollDict types) msgs).val t = lastOfType t msgs := by
    rw [processChunk_val]
    cases hl : lastOfType t msgs with
    | some m => rfl
    | none => rfl
  have hkeys := processChunk_mem_keys t msgs (initialPollDict types)
  have hinit : (initialPollDict types).keys = types := rfl
  rw [hinit] at hkeys
  by_cases h : t ∈ types ∨ (lastOfType t msgs).isSome
  · rw [if_pos h, if_pos (hkeys.mpr h), hval]
  · rw [if_neg h, if_neg (fun hk => h (hkeys.mp hk))]

theorem seenUpTo_cons_zero (e : Bool × List (Option Message))
    (rest : List (Bool × List (Option Message))) :
    seenUpTo (e :: rest) 0 = e.2 := by
  simp [seenUpTo]

theorem seenUpTo_cons_succ (e : Bool × List (Option Message))
    (rest : List (Bool × List (Option Message))) (k : Nat) :
    seenUpTo (e :: rest) (k + 1) = e.2 ++ seenUpTo rest k := by
  simp [seenUpTo]

theorem pollLoop_ok_char (types : List Nat) (reads : List (Bool × List (Option Message))) :
    ∀ (pre : List (Option Message)) (d : PollDict),
      pollLoop reads (processChunk (initialPollDict types) pre) = .ok d →
      ∃ k, k < reads.length ∧
        (∀ j, j ≤ k → expiredAt reads j = false) ∧
        (∀ j, j < k → allObserved types (pre ++ seenUpTo reads j) = false) ∧
        allObserved types (pre ++ seenUpTo reads k) = true ∧
        d = processChunk (initialPollDict types) (pre ++ seenUpTo reads k) := by
  induction reads with
  | nil =>
    intro pre d h
    exact absurd h (by simp [pollLoop])
  | cons entry rest ih =>
    obtain ⟨expired, chunk⟩ := entry
    intro pre d h
    rw [show pollLoop ((expired, chunk) :: rest) (processChunk (initialPollDict types) pre) =
        if expired then .timeoutError
        else
          if dictHasNone (processChunk (processChunk (initialPollDict types) pre) chunk) then
            pollLoop rest (processChunk (processChunk (initialPollDict types) pre) chunk)
          else .ok (processChunk (processChunk (initialPollDict types) pre) chunk)
      from rfl] at h
    cases expired with
    | true => simp at h
    | false =>
      rw [if_neg (by simp)] at h
      rw [← processChunk_append (initialPollDict types) pre chunk] at h
      by_cases hnone : dictHasNone (processChunk (initialPollDict types) (pre ++ chunk)) = true
      · rw [if_pos hnone] at h
        obtain ⟨k, hk, hexp, hincomp, hobs, hd⟩ := ih (pre ++ chunk) d h
        refine ⟨k + 1, by simp only [List.length_cons]; omega, ?_, ?_, ?_, ?_⟩
        · intro j hj
          cases j with
          | zero => rfl
          | succ j => exact hexp j (by omega)
        · intro j hj
          cases j with
          | zero =>
            have hobs0 : allObserved types (pre ++ chunk) = false := by
              cases hao : allObserved types (pre ++ chunk) with
              | false => rfl
              | true =>
                rw [← hasNone_processed] at hao
                rw [hao] at hnone
                exact Bool.noConfusion hnone
            rw [seenUpTo_cons_zero]
            exact hobs0
          | succ j =>
            have h2 := hincomp j (by omega)
            rw [seenUpTo_cons_succ, ← List.append_assoc]
            exact h2
        · rw [seenUpTo_cons_succ, ← List.append_assoc]
          exact hobs
        · rw [seenUpTo_cons_succ, ← List.append_assoc]
          exact hd
      · rw [if_neg hnone] at h
        have hfalse : dictHasNone (processChunk (initialPollDict types) (pre ++ chunk)) = false := by
          cases hcase : dictHasNone (processChunk (initialPollDict types) (pre ++ chunk)) with
          | false => rfl
          | true => exact absurd hcase hnone
        injection h with h2
        refine ⟨0, by simp, ?_, ?_, ?_, ?_⟩
        · intro j hj
          have hj0 : j = 0 := by omega
          rw [hj0]
          rfl
        · intro j hj
          omega
        · rw [seenUpTo_cons_zero]
          exact (hasNone_processed types (pre ++ chunk)).mp hfalse
        · rw [seenUpTo_cons_zero]
          exact h2.symm

theorem pollLoop_timeout (types : List Nat) (reads : List (Bool × List (Option Message))) :
    ∀ (pre : List (Option Message)) (k : Nat),
      k < reads.length →
      expiredAt reads k = true →
      (∀ j, j < k → expiredAt reads j = false) →
      (∀ j, j < k → allObserved types (pre ++ seenUpTo reads j) = false) →
      pollLoop reads (processChunk (initialPollDict types) pre) = .timeoutError := by
  induction reads with
  | nil =>
    intro pre k hk
    simp at hk
  | cons entry rest ih =>
    obtain ⟨expired, chunk⟩ := entry
    intro pre k hk hexp hprev hincomp
    rw [show pollLoop ((expired, chunk) :: rest) (processChunk (initialPollDict types) pre) =
        if expired then .timeoutError
        else
          if dictHasNone (processChunk (processChunk (initialPollDict types) pre) chunk) then
            pollLoop rest (processChunk (processChunk (initialPollDict types) pre) chunk)
          else .ok (processChunk (processChunk (initialPollDict types) pre) chunk)
      from rfl]
    cases k with
    | zero =>
      have he : expired = true := hexp
      rw [he, if_pos rfl]
    | succ k =>
      have he : expired = false := hprev 0 (by omega)
      rw [he, if_neg (by simp)]
      rw [← processChunk_append (initialPollDict types) pre chunk]
      have hobs0 : allObserved types (pre ++ chunk) = false := by
        have h0 := hincomp 0 (by omega)
        rw [seenUpTo_cons_zero] at h0
        exact h0
      have hnone : dictHasNone (processChunk (initialPollDict types) (pre ++ chunk)) = true := by
        cases hcase : dictHasNone (processChunk (initialPollDict types) (pre ++ chunk)) with
        | true => rfl
        | false =>
          rw [hasNone_processed] at hcase
          rw [hcase] at hobs0
          exact Bool.noConfusion hobs0
      rw [if_pos hnone]
      refine ih (pre ++ chunk) k (by simp only [List.length_cons] at hk; omega) hexp ?_ ?_
      · intro j hj
        exact hprev (j + 1) (by omega)
      · intro j hj
        have h2 := hincomp (j + 1) (by omega)
        rw [seenUpTo_cons_succ, ← List.append_assoc] at h2
        exact h2

set_option maxRecDepth 2000 in
theorem writeRequestedGo_ok (types : List Nat) (h : ∀ t ∈ types, t < 2 ^ 15) :
    ∀ acc, writeRequestedGo types acc =
      .ok (acc ++ (types.map fun t => serializedLayout t 0 []).flatten) := by
  induction types with
  | nil =>
    intro acc
    show Except.ok acc = _
    rw [List.map_nil, List.flatten_nil, List.append_nil]
  | cons t rest ih =>
    intro acc
    unfold writeRequestedGo Packet.init
    have hser : Packet.serialize ⟨0, 0, t, []⟩ = .ok (serializedLayout t 0 []) :=
      serialize_eq_layout t 0 [] (h t (List.mem_cons_self t rest)) (by norm_num)
        (by norm_num) (by simp)
    rw [hser]
    dsimp only
    rw [ih (fun x hx => h x (List.mem_cons_of_mem t hx)) (acc ++ serializedLayout t 0 [])]
    simp [List.append_assoc]

/-- For requested types in the signed 16-bit range (every `MessageType`
member is), `write_requested_messages` succeeds and sends the concatenation
of one zero-payload command frame per requested type. -/
theorem write_requested_messages_ok (types : List Nat) (h : ∀ t ∈ types, t < 2 ^ 15) :
    write_requested_messages types =
      .ok ((types.map fun t => serializedLayout t 0 []).flatten) := by
  unfold write_requested_messages
  rw [writeRequestedGo_ok types h []]
  rw [List.nil_append]

/-- C6.  Poll semantics of `poll_messages`: (1) one request is sent first,
the concatenation of one zero-payload command frame per requested type;
(2) if the loop returns a dictionary, it stopped at the first read `k` such
that every requested type had been observed at least once (no earlier read
satisfied all of them, no deadline test up to `k` fired), and the returned
map sends every requested type to the last message of that type seen, while
an unrequested type appears exactly when some message of that type was seen
(again mapped to the last one); (3) if the deadline fires at the top of an
iteration before the requested types are all observed, the call ends in
`TimeoutError` — a result that carries no dictionary, so no partial result is
returned. -/
theorem c6_poll_semantics (types : List Nat) (reads : List (Bool × List (Option Message))) :
    ((∀ t ∈ types, t < 2 ^ 15) →
      (poll_messages types reads).1 =
        .ok ((types.map fun t => serializedLayout t 0 []).flatten)) ∧
    (∀ d, (poll_messages types reads).2 = .ok d →
       ∃ k, k < reads.length ∧
         (∀ j, j ≤ k → expiredAt reads j = false) ∧
         (∀ j, j < k → allObserved types (seenUpTo reads j) = false) ∧
         allObserved types (seenUpTo reads k) = true ∧
         (∀ t, dictGet d t =
           if t ∈ types ∨ (lastOfType t (seenUpTo reads k)).isSome
           then some (lastOfType t (seenUpTo reads k)) else none)) ∧
    (∀ k, k < reads.length → expiredAt reads k = true →
       (∀ j, j < k → expiredAt reads j = false) →
       (∀ j, j < k → allObserved types (seenUpTo reads j) = false) →
       (poll_messages types reads).2 = .timeoutError) := by
  refine ⟨fun h => write_requested_messages_ok types h, ?_, ?_⟩
  · intro d h
    rw [show (poll_messages types reads).2 = pollLoop reads (initialPollDict types) from rfl,
      show initialPollDict types = processChunk (initialPollDict types) [] from rfl] at h
    obtain ⟨k, hk, hexp, hincomp, hobs, hd⟩ := pollLoop_ok_char types reads [] d h
    rw [List.nil_append] at hobs hd
    refine ⟨k, hk, hexp, ?_, hobs, ?_⟩
    · intro j hj
      have h2 := hincomp j hj
      rwa [List.nil_append] at h2
    · intro t
      rw [hd]
      exact dictGet_processed types (seenUpTo reads k) t
  · intro k hk hexp hprev hincomp
    exact pollLoop_timeout types reads [] k hk hexp hprev
      (fun j hj => by rw [List.nil_append]; exact hincomp j hj)

/-- A concrete message for the C6 witness. -/
def c6msg : Message := ⟨0, 0, [], []⟩

/-- A concrete oracle for the C6 witness: the first read delivers only a
message of type `0`, the deadline fires at the second iteration. -/
def c6reads : List (Bool × List (Option Message)) :=
  [(false, [some c6msg]), (true, [])]

/-- C6 witness: polling for types `{0, 2}` when only type `0` ever arrives
and the deadline then fires ends in `TimeoutError`. -/
theorem c6_poll_semantics_witness :
    expiredAt c6reads 1 = true ∧ expiredAt c6reads 0 = false ∧
    allObserved [0, 2] (seenUpTo c6reads 0) = false ∧
    (poll_messages [0, 2] c6reads).2 = .timeoutError :=
  ⟨rfl, rfl, rfl,
   (c6_poll_semantics [0, 2] c6reads).2.2 1 (by decide) rfl
     (fun j hj => by
       have h0 : j = 0 := by omega
       rw [h0]
       rfl)
     (fun j hj => by
       have h0 : j = 0 := by omega
       rw [h0]
       rfl)⟩

theorem decode_nil : decode [] = .ok [] := by
  simp [decode]

theorem decode_cons_ok {data : List Nat} (hne : data ≠ []) {m : Option Message}
    {rest : List Nat} (h : decode_one data = .ok (m, rest)) :
    decode data =
      match decode rest with
      | .error e => .error e
      | .ok ms => .ok (m :: ms) := by
  conv_lhs => rw [decode]
  rw [if_neg hne, h]

theorem serializedLayout_length (t seq : Nat) (payload : List Nat) :
    (serializedLayout t seq payload).length = payload.length + 20 := by
  unfold serializedLayout
  simp [natBytesBE_length, PREAMBLE]
  omega

/-- One frame to be encoded on the wire: type, sequence number, payload. -/
structure WireFrame where
  type : Nat
  seq : Nat
  payload : List Nat
deriving DecidableEq, Repr

/-- The wire bytes of one frame: the frame layout of the protocol — exactly
the bytes `Packet.serialize` produces whenever its `struct.pack` calls accept
the field values (`serialize_eq_layout`). -/
def encodeFrame (f : WireFrame) : List Nat :=
  serializedLayout f.type f.seq f.payload

/-- The frame's fields respect the wire format: a `MessageType` member, a
`uint32` sequence number, a `uint16` payload length. -/
def frameOk (f : WireFrame) : Prop :=
  f.type ∈ validTypes ∧ f.seq < 2 ^ 32 ∧ f.payload.length < 2 ^ 16

instance : DecidablePred frameOk := fun f =>
  decidable_of_iff (f.type ∈ validTypes ∧ f.seq < 2 ^ 32 ∧ f.payload.length < 2 ^ 16) Iff.rfl

/-- What `decode` produces for one frame: a `Message` when the type has a
registered decoder and is not a heartbeat, the `None` placeholder otherwise. -/
def frameResult (f : WireFrame) : Option Message :=
  if f.type ≠ HEARTBEAT ∧ f.type ∈ decoderTypes then
    some ⟨f.type, f.seq, natBytesBE 4 (crc32 (frameBody f.type f.seq f.payload)), f.payload⟩
  else none

/-- C8 counterexample: `read_messages` returns `self._proto.decode(data)`
unfiltered, and `decode` appends the `None` placeholder produced for a
skipped frame.  On a chunk holding a single heartbeat frame the returned
sequence is `[None]` — its element IS a skip placeholder, contradicting the
claim that no element of the returned sequence is one. -/
theorem c8_counterexample :
    decode [0xAB, 0xAD, 0x1D, 0x3A, 0, 0, 0, 0, 0, 0, 0, 0, 0, 0, 0, 0, 0, 10, 0, 0] =
      .ok [none] := by
  have h1 : decode_one
      [0xAB, 0xAD, 0x1D, 0x3A, 0, 0, 0, 0, 0, 0, 0, 0, 0, 0, 0, 0, 0, 10, 0, 0] =
      .ok (none, []) := rfl
  rw [decode_cons_ok (by decide) h1, decode_nil]

/-- C8 as amended.  `read_messages` surfaces the frame-by-frame result of
`decode` in wire order without filtering: for a chunk that is a
concatenation of well-formed frames, the returned sequence has one entry per
frame — a `Message` for frames whose type has a registered decoder and is
not a heartbeat, and a `None` placeholder (not a `Message`) for skipped
frames.  The filtering of placeholders happens later, in the poll loop, not
in `read_messages`. -/
theorem c8_read_messages (frames : List WireFrame) (h : ∀ f ∈ frames, frameOk f) :
    decode ((frames.map encodeFrame).flatten) = .ok (frames.map frameResult) := by
  induction frames with
  | nil => simpa using decode_nil
  | cons f fs ih =>
    obtain ⟨hv, hs, hl⟩ := h f (List.mem_cons_self f fs)
    rw [List.map_cons, List.flatten_cons]
    have hne : encodeFrame f ++ (fs.map encodeFrame).flatten ≠ [] := by
      intro hempty
      have hlen := congrArg List.length hempty
      rw [List.length_append] at hlen
      unfold encodeFrame at hlen
      rw [serializedLayout_length] at hlen
      simp at hlen
    have hdec : decode_one (encodeFrame f ++ (fs.map encodeFrame).flatten) =
        .ok (frameResult f, (fs.map encodeFrame).flatten) := by
      unfold encodeFrame frameResult
      exact decode_one_layout f.type f.seq f.payload _ hv hs hl
    rw [decode_cons_ok hne hdec, ih (fun g hg => h g (List.mem_cons_of_mem f hg))]
    rfl

/-- The frames of the C8 witness: a heartbeat frame followed by a frame of
registered type `0`. -/
def c8frames : List WireFrame :=
  [⟨10, 0, []⟩, ⟨0, 5, [9]⟩]

/-- C8 witness: decoding the concatenation of a heartbeat frame and a `LIVE`
frame yields the placeholder for the first and the message for the second,
in wire order. -/
theorem c8_read_messages_witness :
    (∀ f ∈ c8frames, frameOk f) ∧
    decode ((c8frames.map encodeFrame).flatten) =
      .ok [none, some ⟨0, 5, natBytesBE 4 (crc32 (frameBody 0 5 [9])), [9]⟩] :=
  ⟨by decide, (c8_read_messages c8frames (by decide)).trans rfl⟩

end ArcticSpaDC








